import Mathlib

/-!
Shallow embedding of the spool-tracker lifecycle engine (src/main.py).

Conventions of the embedding:
* `datetime` values are modelled as abstract `Nat` ticks; `datetime.utcnow()`
  becomes an explicit `now : Nat` parameter of the operation that calls it.
* SQLite autoincrement primary keys are modelled by explicit `nextSpoolId` /
  `nextEventId` counters in the database value.
* The SQLAlchemy session plus `db.commit()` is modelled by returning the new
  database value; an aborted request (`raise HTTPException`) returns an error
  and no new database, so a failed operation has no effect.
* Table contents are lists in insertion (= primary key) order.
-/

namespace SpoolTracker

/-- Stage enumeration from src/main.py lines 57-62 (`class Stage(str, Enum)`).
The spec's English names map as FABRICATION = FABRICACAO, LOGISTICS_1 =
LOGISTICA1, PAINTING = PINTURA, LOGISTICS_2 = LOGISTICA2, ON_BOARD = BORDO. -/
inductive Stage where
  | FABRICACAO
  | LOGISTICA1
  | PINTURA
  | LOGISTICA2
  | BORDO
deriving DecidableEq

/-- String value of a Stage member (the `str` mixin: each member's `.value`). -/
def Stage.value : Stage → String
  | .FABRICACAO => "FABRICACAO"
  | .LOGISTICA1 => "LOGISTICA1"
  | .PINTURA => "PINTURA"
  | .LOGISTICA2 => "LOGISTICA2"
  | .BORDO => "BORDO"

/-- `STAGE_ORDER` list from src/main.py lines 65-71. -/
def STAGE_ORDER : List Stage :=
  [.FABRICACAO, .LOGISTICA1, .PINTURA, .LOGISTICA2, .BORDO]

/-- `prev_stage` from src/main.py lines 74-76:
`i = STAGE_ORDER.index(stage); return STAGE_ORDER[i - 1] if i > 0 else None`. -/
def prev_stage (stage : Stage) : Option Stage :=
  let i := STAGE_ORDER.indexOf stage
  if i > 0 then STAGE_ORDER[i - 1]? else none

/-- Status enumeration from src/main.py lines 79-82. The spec's names map as
PENDING = PENDENTE, RELEASED = LIBERADO, BLOCKED = BLOQUEADO. -/
inductive Status where
  | PENDENTE
  | LIBERADO
  | BLOQUEADO
deriving DecidableEq

/-- String value of a Status member. -/
def Status.value : Status → String
  | .PENDENTE => "PENDENTE"
  | .LIBERADO => "LIBERADO"
  | .BLOQUEADO => "BLOQUEADO"

/-- The set of strings that are values of Stage members. -/
def stage_values : List String := STAGE_ORDER.map Stage.value

/-- The set of strings that are values of Status members. -/
def status_values : List String :=
  [Status.PENDENTE.value, Status.LIBERADO.value, Status.BLOQUEADO.value]

/-- `Spool` model from src/main.py lines 97-104: integer primary key `id`
and unique string `tag`. -/
structure Spool where
  id : Nat
  tag : String
deriving DecidableEq

/-- `SpoolState` model from src/main.py lines 107-120: one row per spool
(primary key `spool_id`), holding the current snapshot. The stage and status
columns are free-form strings (`String(30)` / `String(20)`), not enum-typed. -/
structure SpoolState where
  spool_id : Nat
  stage : String
  status : String
  location : String
  note : String
  updated_at : Nat
  updated_by : Option Nat
deriving DecidableEq

/-- `Event` model from src/main.py lines 123-136: append-only audit row. -/
structure Event where
  id : Nat
  spool_id : Nat
  user_id : Option Nat
  ts : Nat
  action : String
  stage : String
  status : String
  location : String
  note : String
deriving DecidableEq

/-- The three relations of the SQLite database, plus the autoincrement
counters for the two integer primary keys. -/
structure DB where
  spools : List Spool
  states : List SpoolState
  events : List Event
  nextSpoolId : Nat
  nextEventId : Nat
deriving DecidableEq

/-- `db.query(Spool).get(spool_id)`: primary-key lookup in the spools table. -/
def findSpool (db : DB) (spool_id : Nat) : Option Spool :=
  db.spools.find? (fun s => s.id == spool_id)

/-- `spool.state`: the (at most one) SpoolState row whose primary key
`spool_id` is the given spool id. -/
def findState (db : DB) (spool_id : Nat) : Option SpoolState :=
  db.states.find? (fun st => st.spool_id == spool_id)

/-- Error raised by `update_spool`: `raise HTTPException(404)` at
src/main.py line 292. -/
inductive UpdateError where
  | notFound
deriving DecidableEq

/-- `update_spool` route from src/main.py lines 286-325. Looks up the spool
(404 when absent), then either creates the SpoolState row (seeded with the
given values, `updated_at = now`, and no `updated_by`, which Python leaves as
None) or overwrites the existing row's stage/status/location/note/updated_at
in place (`updated_by` is not touched), then appends an Event with
`user_id` unset (None), `ts = now` and `action = "UPDATE"`, and commits.
The route performs no validation of `stage`/`status` beyond their being
strings, and never reads the session user. -/
def update_spool (db : DB) (spool_id : Nat) (stage status location note : String)
    (now : Nat) : Except UpdateError DB :=
  match findSpool db spool_id with
  | none => .error .notFound
  | some spool =>
    .ok { db with
          states :=
            match findState db spool.id with
            | none =>
              db.states ++
                [{ spool_id := spool.id, stage := stage, status := status,
                   location := location, note := note, updated_at := now,
                   updated_by := none }]
            | some _ =>
              db.states.map fun st =>
                if st.spool_id == spool.id then
                  { st with stage := stage, status := status,
                            location := location, note := note,
                            updated_at := now }
                else st,
          events := db.events ++
            [{ id := db.nextEventId, spool_id := spool.id, user_id := none,
               ts := now, action := "UPDATE", stage := stage, status := status,
               location := location, note := note }],
          nextEventId := db.nextEventId + 1 }

/-- One update request: the form fields of a POST to `/update/{spool_id}`,
plus the clock value the server reads at that request. -/
structure UpdateReq where
  spool_id : Nat
  stage : String
  status : String
  location : String
  note : String
  now : Nat
deriving DecidableEq

/-- Apply one request; a failing request leaves the database unchanged
(the HTTP error aborts before any session mutation is committed). -/
def applyReq (db : DB) (r : UpdateReq) : DB :=
  match update_spool db r.spool_id r.stage r.status r.location r.note r.now with
  | .ok db' => db'
  | .error _ => db

/-- Apply a sequence of update requests in order. -/
def runReqs (db : DB) (rs : List UpdateReq) : DB :=
  rs.foldl applyReq db

/-- A database holding some spools (as created by import) and no states or
events yet: the situation before any transition has been applied. -/
def initDB (sp : List Spool) : DB :=
  { spools := sp, states := [], events := [], nextSpoolId := sp.length + 1,
    nextEventId := 1 }

/-- The per-row get-or-create logic of `import_excel`, src/main.py lines
352-354: `if not db.query(Spool).filter_by(tag=tag).first():
db.add(Spool(tag=tag))`. The returned identifier is the matched row's
(or the freshly inserted row's) autoincrement primary key. -/
def get_or_create_by_tag (db : DB) (tag : String) : Nat × DB :=
  match db.spools.find? (fun s => s.tag == tag) with
  | some s => (s.id, db)
  | none =>
    (db.nextSpoolId,
     { db with spools := db.spools ++ [{ id := db.nextSpoolId, tag := tag }],
               nextSpoolId := db.nextSpoolId + 1 })

/-- The most recent Event recorded for a spool: last element, in insertion
(= autoincrement id) order, of the events table restricted to that spool. -/
def latest_event (db : DB) (spool_id : Nat) : Option Event :=
  (db.events.filter (fun e => e.spool_id == spool_id)).getLast?

/-- Number of Event rows for a spool. -/
def events_for (db : DB) (spool_id : Nat) : Nat :=
  db.events.countP (fun e => e.spool_id == spool_id)

/-- Number of SpoolState rows for a spool. -/
def states_for (db : DB) (spool_id : Nat) : Nat :=
  db.states.countP (fun st => st.spool_id == spool_id)

/-- Modelled from the spec (section 4.3): the stage-transition rule the spec
asks the Transition Engine to enforce via `previous_stage` — the new stage
must equal the current one, be exactly one step forward, or exactly one step
back; everything else is an InvalidTransition. The source has no
corresponding code: `update_spool` never calls `prev_stage`. -/
def spec_allowed_transition (cur new : Stage) : Bool :=
  decide (new = cur) || decide (prev_stage new = some cur)
    || decide (prev_stage cur = some new)

/-- SQL LIKE pattern matching as SQLite evaluates it: `%` matches any
(possibly empty) character sequence, `_` matches exactly one character, and
every other character matches case-insensitively for ASCII letters (SQLite's
default LIKE folds only A-Z; `Char.toLower` performs exactly that fold). -/
def likeMatch : List Char → List Char → Bool
  | [], cs => cs.isEmpty
  | p :: ps, cs =>
    if p == '%' then
      cs.tails.any (fun t => likeMatch ps t)
    else
      match cs with
      | [] => false
      | c :: cs2 => (p == '_' || p.toLower == c.toLower) && likeMatch ps cs2

/-- The row filter of the `/spools` route: SQLAlchemy's
`Spool.tag.contains(q)` (src/main.py line 238) compiles to
`tag LIKE '%' || q || '%'` with no escape character, evaluated by SQLite's
default LIKE. -/
def tag_like (q tag : String) : Bool :=
  likeMatch ("%" ++ q ++ "%").data tag.data

/-- `spools` route from src/main.py lines 234-240: starts from the whole
spools table, filters by `tag.contains(q)` only when `q` is non-empty
(`if q:` is false for the empty string), and returns at most 100 rows in
table (= id) order. -/
def spools (db : DB) (q : String) : List Spool :=
  (if q = "" then db.spools
   else db.spools.filter (fun s => tag_like q s.tag)).take 100

/-- Written from the spec's words, for comparison with the code: `q` occurs
in `t` as a case-sensitive substring. -/
def spec_contains_cs (q t : String) : Prop :=
  q.data <:+: t.data

instance (q t : String) : Decidable (spec_contains_cs q t) :=
  List.decidableInfix q.data t.data

/-- Written from the spec's words as amended: `q` occurs in `t` as a
substring up to ASCII case (both sides folded with `Char.toLower`). -/
def spec_contains_ci (q t : String) : Prop :=
  q.data.map Char.toLower <:+: t.data.map Char.toLower

instance (q t : String) : Decidable (spec_contains_ci q t) :=
  List.decidableInfix (q.data.map Char.toLower) (t.data.map Char.toLower)

/-- A concrete database: one spool, currently at stage PINTURA, with the
matching Event already logged. -/
def dbPaint : DB :=
  { spools := [⟨1, "SP-001"⟩],
    states := [⟨1, "PINTURA", "PENDENTE", "", "", 1, none⟩],
    events := [⟨1, 1, none, 1, "UPDATE", "PINTURA", "PENDENTE", "", ""⟩],
    nextSpoolId := 2, nextEventId := 2 }

/-- C9: `prev_stage` is a pure total function on Stage returning the
predecessor in the order FABRICACAO → LOGISTICA1 → PINTURA → LOGISTICA2 →
BORDO, and none for the first stage; the five cases below are exhaustive. -/
theorem prev_stage_spec :
    prev_stage .FABRICACAO = none ∧
    prev_stage .LOGISTICA1 = some .FABRICACAO ∧
    prev_stage .PINTURA = some .LOGISTICA1 ∧
    prev_stage .LOGISTICA2 = some .PINTURA ∧
    prev_stage .BORDO = some .LOGISTICA2 := by
  decide

/-- C2: the spec's stage-monotonicity rule classifies PINTURA → LOGISTICA2
and PINTURA → LOGISTICA1 as allowed and PINTURA → BORDO (a forward skip) as
invalid, but `update_spool` enforces nothing: on a spool currently at
PINTURA it accepts the skip to BORDO, overwrites the snapshot with stage
BORDO and appends a second Event, instead of failing with
InvalidTransition. -/
theorem stage_skip_not_rejected :
    spec_allowed_transition .PINTURA .LOGISTICA2 = true ∧
    spec_allowed_transition .PINTURA .LOGISTICA1 = true ∧
    spec_allowed_transition .PINTURA .BORDO = false ∧
    ∃ db', update_spool dbPaint 1 (Stage.BORDO.value) (Status.PENDENTE.value)
        ("") ("") 2 = .ok db' ∧
      findState db' 1 = some ⟨1, "BORDO", "PENDENTE", "", "", 2, none⟩ ∧
      events_for db' 1 = 2 := by
  refine ⟨by decide, by decide, by decide, _, rfl, by decide, by decide⟩

/-- C3: the strings XYZ and NOPE are not members of the Stage and Status
enumerations, yet `update_spool` accepts them: it persists them into the
snapshot and the Event Log instead of failing with InvalidInput. -/
theorem invalid_enum_not_rejected :
    stage_values.contains ("XYZ") = false ∧
    status_values.contains ("NOPE") = false ∧
    ∃ db', update_spool dbPaint 1 ("XYZ") ("NOPE") ("") ("") 2 = .ok db' ∧
      findState db' 1 = some ⟨1, "XYZ", "NOPE", "", "", 2, none⟩ ∧
      latest_event db' 1 =
        some ⟨2, 1, none, 2, "UPDATE", "XYZ", "NOPE", "", ""⟩ := by
  refine ⟨by decide, by decide, _, rfl, by decide, by decide⟩

/-- C6: `get_or_create_by_tag` deduplicates: a second call with the same tag
returns the same identifier and leaves the database untouched, and a single
call grows the spools table by one row exactly when the tag is new (by zero
rows when the tag already exists). -/
theorem get_or_create_by_tag_dedup (db : DB) (t : String) :
    (get_or_create_by_tag (get_or_create_by_tag db t).2 t).1 =
      (get_or_create_by_tag db t).1 ∧
    (get_or_create_by_tag (get_or_create_by_tag db t).2 t).2 =
      (get_or_create_by_tag db t).2 ∧
    (get_or_create_by_tag db t).2.spools.length =
      (if (db.spools.find? (fun s => s.tag == t)).isSome then
        db.spools.length
       else db.spools.length + 1) := by
  unfold get_or_create_by_tag
  cases h : db.spools.find? (fun s => s.tag == t) with
  | some s => simp [h]
  | none =>
    simp only [h, Option.isSome_none, Bool.false_eq_true, if_false]
    constructor
    · simp [List.find?_append, h, List.find?]
    · constructor
      · simp [List.find?_append, h, List.find?]
      · simp

/-- Helper: `find?` commutes with a map that does not change the predicate. -/
theorem find?_map_congr {α : Type} (f : α → α) (p : α → Bool)
    (hf : ∀ x, p (f x) = p x) (l : List α) :
    (l.map f).find? p = (l.find? p).map f := by
  induction l with
  | nil => rfl
  | cons x l ih =>
    by_cases hx : p x = true
    · simp [List.find?_cons, hf, hx]
    · simp only [Bool.not_eq_true] at hx
      simp [List.find?_cons, hf, hx, ih]

/-- Helper: `countP` is unchanged by a map that does not change the
predicate. -/
theorem countP_map_congr {α : Type} (f : α → α) (p : α → Bool)
    (hf : ∀ x, p (f x) = p x) (l : List α) :
    (l.map f).countP p = l.countP p := by
  rw [List.countP_map]
  refine List.countP_congr ?_
  intro a _
  simpa using hf a

/-- Helper: a found spool's id is the searched id. -/
theorem findSpool_id {db : DB} {i : Nat} {s : Spool}
    (h : findSpool db i = some s) : s.id = i := by
  unfold findSpool at h
  simpa using List.find?_some (p := fun x : Spool => x.id == i) h

/-- Helper: a found state's key is the searched id. -/
theorem findState_id {db : DB} {i : Nat} {st : SpoolState}
    (h : findState db i = some st) : st.spool_id = i := by
  unfold findState at h
  simpa using List.find?_some (p := fun x : SpoolState => x.spool_id == i) h

/-- Helper: full characterization of a successful `update_spool` call. -/
theorem update_spool_ok_elim {db : DB} {i : Nat} {a b c d : String} {t : Nat}
    {db' : DB} (h : update_spool db i a b c d t = .ok db') :
    ∃ s, findSpool db i = some s ∧ s.id = i ∧
      db' = { db with
        states :=
          match findState db i with
          | none => db.states ++ [⟨i, a, b, c, d, t, none⟩]
          | some _ =>
            db.states.map fun st =>
              if st.spool_id == i then
                { st with stage := a, status := b, location := c, note := d,
                          updated_at := t }
              else st,
        events := db.events ++
          [⟨db.nextEventId, i, none, t, "UPDATE", a, b, c, d⟩],
        nextEventId := db.nextEventId + 1 } := by
  unfold update_spool at h
  split at h
  · exact absurd h (by simp)
  · rename_i s hfs
    have hid : s.id = i := findSpool_id hfs
    injection h with h2
    subst h2
    refine ⟨s, hfs, hid, ?_⟩
    rw [hid]

/-- Helper: `update_spool` succeeds exactly when the spool exists. -/
theorem update_spool_isOk {db : DB} {i : Nat} (a b c d : String) (t : Nat)
    {s : Spool} (hs : findSpool db i = some s) :
    ∃ db', update_spool db i a b c d t = .ok db' := by
  unfold update_spool
  rw [hs]
  exact ⟨_, rfl⟩

/-- Helper: the state-row rewrite of `update_spool` does not change the
`spool_id` predicate of any row. -/
theorem upd_pred_congr (i j : Nat) (a b c d : String) (t : Nat) :
    ∀ st : SpoolState,
      (((fun st : SpoolState =>
         if st.spool_id == i then
           { st with stage := a, status := b, location := c, note := d,
                     updated_at := t }
         else st) st).spool_id == j)
        = (st.spool_id == j) := by
  intro st
  by_cases hx : st.spool_id == i <;> simp [hx]

/-- Helper: the state rows after a successful `update_spool`: the written
row for the target spool (with the created row carrying no `updated_by`),
and untouched rows for every other spool. -/
theorem findState_after_update {db : DB} {i : Nat} {a b c d : String}
    {t : Nat} {db' : DB} (h : update_spool db i a b c d t = .ok db') :
    (∀ st, findState db' i = some st →
       st.spool_id = i ∧ st.stage = a ∧ st.status = b ∧ st.location = c ∧
         st.note = d ∧ st.updated_at = t) ∧
    (∃ st, findState db' i = some st) ∧
    (findState db i = none → findState db' i = some ⟨i, a, b, c, d, t, none⟩) ∧
    (∀ j, j ≠ i → findState db' j = findState db j) := by
  obtain ⟨s, hfs, hid, rfl⟩ := update_spool_ok_elim h
  cases hst : findState db i with
  | none =>
    simp only [findState, hst]
    constructor
    · intro st hstate
      rw [List.find?_append] at hstate
      rw [show db.states.find? (fun st => st.spool_id == i) = none from hst]
        at hstate
      simp [List.find?] at hstate
      simp [← hstate]
    · constructor
      · refine ⟨⟨i, a, b, c, d, t, none⟩, ?_⟩
        rw [List.find?_append,
          show db.states.find? (fun st => st.spool_id == i) = none from hst]
        simp [List.find?]
      · constructor
        · intro _
          rw [List.find?_append,
            show db.states.find? (fun st => st.spool_id == i) = none from hst]
          simp [List.find?]
        · intro j hj
          rw [List.find?_append]
          cases hdb : db.states.find? (fun st => st.spool_id == j) with
          | some st0 => simp
          | none =>
            have hij : (i == j) = false := by simp [Ne.symm hj]
            simp [List.find?, hij]
  | some st0 =>
    have hkey : st0.spool_id = i := findState_id hst
    simp only [findState, hst]
    have hmap : ∀ j : Nat,
        (db.states.map fun st =>
            if st.spool_id == i then
              { st with stage := a, status := b, location := c, note := d,
                        updated_at := t }
            else st).find? (fun st => st.spool_id == j)
          = (db.states.find? (fun st => st.spool_id == j)).map
              (fun st =>
                if st.spool_id == i then
                  { st with stage := a, status := b, location := c, note := d,
                            updated_at := t }
                else st) := by
      intro j
      exact find?_map_congr _ _ (upd_pred_congr i j a b c d t) db.states
    constructor
    · intro st hstate
      rw [hmap i,
        show db.states.find? (fun st => st.spool_id == i) = some st0
          from hst] at hstate
      simp [hkey] at hstate
      simp [← hstate]
    · constructor
      · rw [hmap i,
          show db.states.find? (fun st => st.spool_id == i) = some st0
            from hst]
        exact ⟨_, rfl⟩
      · constructor
        · intro hnone
          exact absurd hnone (by simp)
        · intro j hj
          rw [hmap j]
          cases hdb : db.states.find? (fun st => st.spool_id == j) with
          | none => rfl
          | some st1 =>
            have hk1 : st1.spool_id = j :=
              findState_id (show findState db j = some st1 from hdb)
            simp [hk1, hj]

/-- Helper: the spools table, counters and event append of a successful
`update_spool` call. -/
theorem events_after_update {db : DB} {i : Nat} {a b c d : String} {t : Nat}
    {db' : DB} (h : update_spool db i a b c d t = .ok db') :
    db'.spools = db.spools ∧
    db'.events = db.events ++
      [⟨db.nextEventId, i, none, t, "UPDATE", a, b, c, d⟩] ∧
    db'.nextEventId = db.nextEventId + 1 ∧
    db'.nextSpoolId = db.nextSpoolId := by
  obtain ⟨s, hfs, hid, rfl⟩ := update_spool_ok_elim h
  exact ⟨rfl, rfl, rfl, rfl⟩

/-- Helper: after a successful `update_spool`, the latest event of the
target spool is the appended one, and other spools' latest events are
unchanged. -/
theorem latest_event_after_update {db : DB} {i : Nat} {a b c d : String}
    {t : Nat} {db' : DB} (h : update_spool db i a b c d t = .ok db') :
    latest_event db' i =
      some ⟨db.nextEventId, i, none, t, "UPDATE", a, b, c, d⟩ ∧
    ∀ j, j ≠ i → latest_event db' j = latest_event db j := by
  obtain ⟨-, hev, -, -⟩ := events_after_update h
  constructor
  · unfold latest_event
    rw [hev, List.filter_append]
    simp [List.filter, List.getLast?_concat]
  · intro j hj
    unfold latest_event
    rw [hev, List.filter_append]
    have hij : (i == j) = false := by simp [Ne.symm hj]
    simp [List.filter, hij]

/-- C8: calling `update_spool` with a `spool_id` that matches no Spool fails
with the 404 error before any write: the operation returns `notFound` and,
as a request, leaves the database exactly as it was. -/
theorem update_notfound_no_effect (db : DB) (i : Nat) (a b c d : String)
    (t : Nat) (h : findSpool db i = none) :
    update_spool db i a b c d t = .error .notFound ∧
    applyReq db ⟨i, a, b, c, d, t⟩ = db := by
  constructor
  · unfold update_spool
    rw [h]
  · unfold applyReq update_spool
    simp only
    rw [h]

/-- Witness for C8 at a concrete database with no spool number 7. -/
theorem update_notfound_no_effect_w :
    update_spool (initDB []) 7 ("FABRICACAO") ("PENDENTE") ("") ("") 0
        = .error .notFound ∧
    applyReq (initDB []) ⟨7, "FABRICACAO", "PENDENTE", "", "", 0⟩
        = initDB [] :=
  update_notfound_no_effect (initDB []) 7 ("FABRICACAO") ("PENDENTE") ("")
    ("") 0 (by decide)

/-- The database obtained from `dbPaint` by updating spool 1 to stage BORDO
at time 2. -/
def dbPaint2 : DB :=
  { spools := [⟨1, "SP-001"⟩],
    states := [⟨1, "BORDO", "PENDENTE", "", "", 2, none⟩],
    events := [⟨1, 1, none, 1, "UPDATE", "PINTURA", "PENDENTE", "", ""⟩,
               ⟨2, 1, none, 2, "UPDATE", "BORDO", "PENDENTE", "", ""⟩],
    nextSpoolId := 2, nextEventId := 3 }

/-- C10: `update_spool` records no actor: the appended Event carries
`user_id = none` and `action = "UPDATE"`, its timestamp is the same `now`
written into the snapshot's `updated_at`, and a freshly created snapshot
carries `updated_by = none`. The route reads no session state at all (its
signature has no user or request argument), so this holds whoever is
logged in. -/
theorem update_actorless (db : DB) (i : Nat) (a b c d : String) (t : Nat)
    (db' : DB) (h : update_spool db i a b c d t = .ok db') :
    ∃ ev, db'.events = db.events ++ [ev] ∧ ev.user_id = none ∧
      ev.action = "UPDATE" ∧ ev.ts = t ∧
      (∀ st, findState db' i = some st → st.updated_at = ev.ts) ∧
      (findState db i = none →
        findState db' i = some ⟨i, a, b, c, d, t, none⟩) := by
  obtain ⟨-, hev, -, -⟩ := events_after_update h
  obtain ⟨hfields, -, hcreate, -⟩ := findState_after_update h
  refine ⟨_, hev, rfl, rfl, rfl, ?_, hcreate⟩
  intro st hst
  exact (hfields st hst).2.2.2.2.2

/-- Witness for C10: the concrete transition from `dbPaint` to `dbPaint2`. -/
theorem update_actorless_w :
    ∃ ev, dbPaint2.events = dbPaint.events ++ [ev] ∧ ev.user_id = none ∧
      ev.action = "UPDATE" ∧ ev.ts = 2 ∧
      (∀ st, findState dbPaint2 1 = some st → st.updated_at = ev.ts) ∧
      (findState dbPaint 1 = none →
        findState dbPaint2 1 = some ⟨1, "BORDO", "PENDENTE", "", "", 2, none⟩) :=
  update_actorless dbPaint 1 ("BORDO") ("PENDENTE") ("") ("") 2 dbPaint2
    (by rfl)

/-- C4: two consecutive `update_spool` calls with identical arguments append
two distinct Events (different identifiers, same payload) while the second
call leaves the snapshot's stage, status, location and note exactly as the
first call left them: idempotent at the CurrentState level, not at the
Event Log level. -/
theorem update_idempotent_on_state (db : DB) (i : Nat) (a b c d : String)
    (t1 t2 : Nat) (db1 : DB) (h : update_spool db i a b c d t1 = .ok db1) :
    ∃ db2, update_spool db1 i a b c d t2 = .ok db2 ∧
      (∃ e1 e2, db2.events = db.events ++ [e1, e2] ∧ e1.id ≠ e2.id ∧
        e1.stage = e2.stage ∧ e1.status = e2.status ∧
        e1.location = e2.location ∧ e1.note = e2.note) ∧
      (∀ st1 st2, findState db1 i = some st1 → findState db2 i = some st2 →
        st2.stage = st1.stage ∧ st2.status = st1.status ∧
        st2.location = st1.location ∧ st2.note = st1.note) := by
  obtain ⟨s, hfs, hid, -⟩ := update_spool_ok_elim h
  obtain ⟨hsp1, hev1, hnext1, -⟩ := events_after_update h
  have hfs1 : findSpool db1 i = some s := by
    unfold findSpool at hfs ⊢
    rw [hsp1]
    exact hfs
  obtain ⟨db2, h2⟩ := update_spool_isOk a b c d t2 hfs1
  obtain ⟨hsp2, hev2, hnext2, -⟩ := events_after_update h2
  refine ⟨db2, h2, ?_, ?_⟩
  · refine ⟨⟨db.nextEventId, i, none, t1, "UPDATE", a, b, c, d⟩,
      ⟨db1.nextEventId, i, none, t2, "UPDATE", a, b, c, d⟩,
      ?_, ?_, rfl, rfl, rfl, rfl⟩
    · rw [hev2, hev1, List.append_assoc]
      rfl
    · simp only [ne_eq]
      rw [hnext1]
      omega
  · intro st1 st2 h1 h2'
    have f1 := (findState_after_update h).1 st1 h1
    have f2 := (findState_after_update h2).1 st2 h2'
    refine ⟨?_, ?_, ?_, ?_⟩
    · rw [f2.2.1, f1.2.1]
    · rw [f2.2.2.1, f1.2.2.1]
    · rw [f2.2.2.2.1, f1.2.2.2.1]
    · rw [f2.2.2.2.2.1, f1.2.2.2.2.1]

/-- Witness for C4: repeating the BORDO update on `dbPaint`. -/
theorem update_idempotent_on_state_w :
    ∃ db2, update_spool dbPaint2 1 ("BORDO") ("PENDENTE") ("") ("") 3
        = .ok db2 ∧
      (∃ e1 e2, db2.events = dbPaint.events ++ [e1, e2] ∧ e1.id ≠ e2.id ∧
        e1.stage = e2.stage ∧ e1.status = e2.status ∧
        e1.location = e2.location ∧ e1.note = e2.note) ∧
      (∀ st1 st2, findState dbPaint2 1 = some st1 →
          findState db2 1 = some st2 →
        st2.stage = st1.stage ∧ st2.status = st1.status ∧
        st2.location = st1.location ∧ st2.note = st1.note) :=
  update_idempotent_on_state dbPaint 1 ("BORDO") ("PENDENTE") ("") ("") 2 3
    dbPaint2 (by rfl)

/-- Helper: a spool has no state row exactly when its state-row count is
zero. -/
theorem states_for_zero_iff {db : DB} {i : Nat} :
    states_for db i = 0 ↔ findState db i = none := by
  unfold states_for findState
  rw [List.countP_eq_zero, List.find?_eq_none]

/-- Helper: row counts after a successful `update_spool`: one more Event for
the target spool, a state row created only when none existed. -/
theorem counts_after_update {db : DB} {i : Nat} {a b c d : String} {t : Nat}
    {db' : DB} (h : update_spool db i a b c d t = .ok db') :
    events_for db' i = events_for db i + 1 ∧
    states_for db' i =
      (if findState db i = none then states_for db i + 1
       else states_for db i) := by
  obtain ⟨s, hfs, hid, rfl⟩ := update_spool_ok_elim h
  constructor
  · unfold events_for
    simp only
    rw [List.countP_append]
    simp [List.countP, List.countP.go]
  · cases hst : findState db i with
    | none =>
      unfold states_for
      simp only [hst]
      rw [List.countP_append]
      simp [List.countP, List.countP.go]
    | some st0 =>
      unfold states_for
      simp only [hst]
      rw [countP_map_congr _ _ (upd_pred_congr i i a b c d t)]
      simp

/-- Helper: effect of a request sequence that targets one existing spool on
the Event and state row counts. -/
theorem runReqs_counts {db : DB} {i : Nat} {s : Spool} (rs : List UpdateReq)
    (hs : findSpool db i = some s) (hall : ∀ r ∈ rs, r.spool_id = i) :
    events_for (runReqs db rs) i = events_for db i + rs.length ∧
    (rs ≠ [] → states_for (runReqs db rs) i =
      (if states_for db i = 0 then 1 else states_for db i)) := by
  induction rs generalizing db with
  | nil => simp [runReqs]
  | cons r rs ih =>
    have hri : r.spool_id = i := hall r (by simp)
    have hs' : findSpool db r.spool_id = some s := by rw [hri]; exact hs
    obtain ⟨db1, h1⟩ :=
      update_spool_isOk r.stage r.status r.location r.note r.now hs'
    have happ : applyReq db r = db1 := by
      unfold applyReq
      rw [h1]
    have hrun : runReqs db (r :: rs) = runReqs db1 rs := by
      unfold runReqs
      rw [List.foldl_cons, happ]
    rw [hri] at h1
    have hs1 : findSpool db1 i = some s := by
      unfold findSpool at hs ⊢
      rw [(events_after_update h1).1]
      exact hs
    obtain ⟨hec, hsc⟩ := counts_after_update h1
    obtain ⟨ihe, ihs⟩ := ih hs1 (fun r2 hr2 => hall r2 (by simp [hr2]))
    constructor
    · rw [hrun, ihe, hec]
      simp only [List.length_cons]
      omega
    · intro _
      rw [hrun]
      by_cases hz : states_for db i = 0
      · have hnone : findState db i = none := states_for_zero_iff.mp hz
        have h1c : states_for db1 i = 1 := by
          rw [hsc, if_pos hnone, hz]
        cases rs with
        | nil => simp [runReqs, h1c, hz]
        | cons r2 rs2 =>
          rw [ihs (by simp), h1c]
          simp [hz]
      · have hsome : findState db i ≠ none := fun hc =>
          hz (states_for_zero_iff.mpr hc)
        have h1c : states_for db1 i = states_for db i := by
          rw [hsc, if_neg hsome]
        cases rs with
        | nil => simp [runReqs, h1c, hz]
        | cons r2 rs2 =>
          rw [ihs (by simp), h1c]

/-- C5: applying N update requests (N ≥ 1) in sequence to one existing spool
yields exactly N Event rows and exactly one CurrentState row for that spool,
starting from a database with spools but no states or events. -/
theorem n_updates_counts (sp : List Spool) (i : Nat) (s : Spool)
    (hs : findSpool (initDB sp) i = some s) (rs : List UpdateReq)
    (hne : rs ≠ []) (hall : ∀ r ∈ rs, r.spool_id = i) :
    events_for (runReqs (initDB sp) rs) i = rs.length ∧
    states_for (runReqs (initDB sp) rs) i = 1 := by
  obtain ⟨he, hst⟩ := runReqs_counts rs hs hall
  constructor
  · rw [he]
    simp [events_for, initDB]
  · rw [hst hne]
    simp [states_for, initDB]

/-- Witness for C5: one update on a one-spool database gives one Event and
one state row. -/
theorem n_updates_counts_w :
    events_for (runReqs (initDB [⟨1, "SP-001"⟩])
      [⟨1, "FABRICACAO", "PENDENTE", "", "", 0⟩]) 1 = 1 ∧
    states_for (runReqs (initDB [⟨1, "SP-001"⟩])
      [⟨1, "FABRICACAO", "PENDENTE", "", "", 0⟩]) 1 = 1 :=
  n_updates_counts [⟨1, "SP-001"⟩] 1 ⟨1, "SP-001"⟩ (by rfl)
    [⟨1, "FABRICACAO", "PENDENTE", "", "", 0⟩] (by simp) (by simp)

/-- The snapshot-equals-latest-log-entry invariant: every existing state row
agrees with the most recent Event of its spool on stage, status, location
and note. -/
def matches_latest (db : DB) : Prop :=
  ∀ i st, findState db i = some st → ∃ ev, latest_event db i = some ev ∧
    st.stage = ev.stage ∧ st.status = ev.status ∧
    st.location = ev.location ∧ st.note = ev.note

/-- Helper: one successful `update_spool` preserves the invariant. -/
theorem matches_latest_update {db db' : DB} {i : Nat} {a b c d : String}
    {t : Nat} (h : update_spool db i a b c d t = .ok db')
    (hm : matches_latest db) : matches_latest db' := by
  intro j st hst
  by_cases hj : j = i
  · subst hj
    have hfield := (findState_after_update h).1 st hst
    exact ⟨⟨db.nextEventId, j, none, t, "UPDATE", a, b, c, d⟩,
      (latest_event_after_update h).1, hfield.2.1, hfield.2.2.1,
      hfield.2.2.2.1, hfield.2.2.2.2.1⟩
  · have hpres := (findState_after_update h).2.2.2 j hj
    rw [hpres] at hst
    obtain ⟨ev, hev, hf⟩ := hm j st hst
    refine ⟨ev, ?_, hf⟩
    rw [(latest_event_after_update h).2 j hj]
    exact hev

/-- Helper: one request (successful or not) preserves the invariant. -/
theorem matches_latest_applyReq {db : DB} (r : UpdateReq)
    (hm : matches_latest db) : matches_latest (applyReq db r) := by
  unfold applyReq
  cases hu : update_spool db r.spool_id r.stage r.status r.location r.note
      r.now with
  | ok db' => exact matches_latest_update hu hm
  | error e => exact hm

/-- Helper: any request sequence preserves the invariant. -/
theorem matches_latest_runReqs {db : DB} (rs : List UpdateReq)
    (hm : matches_latest db) : matches_latest (runReqs db rs) := by
  induction rs generalizing db with
  | nil => exact hm
  | cons r rs ih => exact ih (matches_latest_applyReq r hm)

/-- Helper: the invariant holds before any transition. -/
theorem matches_latest_init (sp : List Spool) : matches_latest (initDB sp) := by
  intro i st hst
  exact absurd hst (by simp [findState, initDB, List.find?])

/-- C1: after any sequence of update requests from a fresh database, every
spool's CurrentState agrees with that spool's most recent Event on stage,
status, location and note: the snapshot never diverges from the latest log
entry. -/
theorem snapshot_eq_latest_event (sp : List Spool) (rs : List UpdateReq)
    (i : Nat) (st : SpoolState)
    (h : findState (runReqs (initDB sp) rs) i = some st) :
    ∃ ev, latest_event (runReqs (initDB sp) rs) i = some ev ∧
      st.stage = ev.stage ∧ st.status = ev.status ∧
      st.location = ev.location ∧ st.note = ev.note :=
  matches_latest_runReqs rs (matches_latest_init sp) i st h

/-- Witness for C1: one concrete update, snapshot equals the latest Event. -/
theorem snapshot_eq_latest_event_w :
    ∃ ev, latest_event (runReqs (initDB [⟨1, "SP-001"⟩])
        [⟨1, "FABRICACAO", "PENDENTE", "", "", 0⟩]) 1 = some ev ∧
      (⟨1, "FABRICACAO", "PENDENTE", "", "", 0, none⟩ : SpoolState).stage
        = ev.stage ∧
      (⟨1, "FABRICACAO", "PENDENTE", "", "", 0, none⟩ : SpoolState).status
        = ev.status ∧
      (⟨1, "FABRICACAO", "PENDENTE", "", "", 0, none⟩ : SpoolState).location
        = ev.location ∧
      (⟨1, "FABRICACAO", "PENDENTE", "", "", 0, none⟩ : SpoolState).note
        = ev.note :=
  snapshot_eq_latest_event [⟨1, "SP-001"⟩]
    [⟨1, "FABRICACAO", "PENDENTE", "", "", 0⟩] 1
    ⟨1, "FABRICACAO", "PENDENTE", "", "", 0, none⟩ (by rfl)

/-- Helper: a pattern starting with `%` matches a string exactly when the
rest of the pattern matches some suffix of it. -/
theorem likeMatch_star (ps cs : List Char) :
    likeMatch ('%' :: ps) cs = true ↔
      ∃ t, t <:+ cs ∧ likeMatch ps t = true := by
  simp [likeMatch, List.any_eq_true, List.mem_tails]

/-- Helper: a non-wildcard pattern character never matches the empty
string. -/
theorem likeMatch_cons_nil {q : Char} (hq1 : q ≠ '%') (ps : List Char) :
    likeMatch (q :: ps) [] = false := by
  simp [likeMatch, hq1]

/-- Helper: a non-wildcard pattern character matches one character up to
ASCII case folding. -/
theorem likeMatch_cons_cons {q : Char} (hq1 : q ≠ '%') (hq2 : q ≠ '_')
    (ps : List Char) (c : Char) (cs : List Char) :
    likeMatch (q :: ps) (c :: cs) =
      ((q.toLower == c.toLower) && likeMatch ps cs) := by
  have hb : (q == '_') = false := beq_eq_false_iff_ne.mpr hq2
  simp [likeMatch, hq1, hb]

/-- Helper: a wildcard-free pattern followed by a trailing `%` matches
exactly the strings that start, up to ASCII case, with the pattern. -/
theorem likeMatch_tail_star :
    ∀ (qs : List Char), (∀ c ∈ qs, c ≠ '%' ∧ c ≠ '_') →
    ∀ cs, (likeMatch (qs ++ ['%']) cs = true ↔
      ∃ pre post, cs = pre ++ post ∧
        qs.map Char.toLower = pre.map Char.toLower) := by
  intro qs
  induction qs with
  | nil =>
    intro _ cs
    constructor
    · intro _
      exact ⟨[], cs, rfl, rfl⟩
    · intro _
      rw [show ([] ++ [(Char.ofNat 37)] : List Char) = ['%'] from rfl,
        likeMatch_star]
      exact ⟨[], List.nil_suffix, rfl⟩
  | cons q qs ih =>
    intro hq cs
    have hq1 : q ≠ '%' := (hq q (by simp)).1
    have hq2 : q ≠ '_' := (hq q (by simp)).2
    have hqs : ∀ c ∈ qs, c ≠ '%' ∧ c ≠ '_' :=
      fun c hc => hq c (List.mem_cons_of_mem _ hc)
    rw [List.cons_append]
    cases cs with
    | nil =>
      rw [likeMatch_cons_nil hq1]
      constructor
      · intro h
        exact absurd h (by simp)
      · rintro ⟨pre, post, hsplit, hmap⟩
        obtain ⟨hpre, -⟩ := List.append_eq_nil.mp hsplit.symm
        subst hpre
        simp at hmap
    | cons c cs2 =>
      rw [likeMatch_cons_cons hq1 hq2]
      rw [Bool.and_eq_true]
      constructor
      · rintro ⟨hqc, hrest⟩
        obtain ⟨pre2, post, hsplit, hmap⟩ := (ih hqs cs2).mp hrest
        refine ⟨c :: pre2, post, by rw [List.cons_append, hsplit], ?_⟩
        simp only [List.map_cons]
        rw [beq_iff_eq.mp hqc, hmap]
      · rintro ⟨pre, post, hsplit, hmap⟩
        cases pre with
        | nil => simp at hmap
        | cons c0 pre2 =>
          rw [List.cons_append] at hsplit
          injection hsplit with h1 h2
          simp only [List.map_cons] at hmap
          injection hmap with hm1 hm2
          constructor
          · rw [beq_iff_eq, hm1, h1]
          · exact (ih hqs cs2).mpr ⟨pre2, post, h2, hm2⟩

/-- Helper: for a query with no LIKE wildcards, the `/spools` row filter
accepts a tag exactly when the query is a substring of the tag up to ASCII
case. -/
theorem tag_like_iff_ci (q t : String)
    (hq : ∀ c ∈ q.data, c ≠ '%' ∧ c ≠ '_') :
    tag_like q t = true ↔ spec_contains_ci q t := by
  unfold tag_like spec_contains_ci
  have hdata : ("%" ++ q ++ "%").data = '%' :: (q.data ++ ['%']) := by
    rw [String.data_append ("%" ++ q), String.data_append ("%") q,
      show ("%").data = ['%'] from rfl, List.append_assoc,
      List.singleton_append]
  rw [hdata, likeMatch_star]
  constructor
  · rintro ⟨t2, hsuf, hm⟩
    obtain ⟨t1, ht⟩ := hsuf
    obtain ⟨pre, post, hsplit, hmap⟩ := (likeMatch_tail_star q.data hq t2).mp hm
    refine ⟨t1.map Char.toLower, post.map Char.toLower, ?_⟩
    rw [hmap, ← List.map_append, ← List.map_append, List.append_assoc,
      ← hsplit, ht]
  · rintro ⟨s1, s2, hocc⟩
    have h1 : t.data.map Char.toLower = s1 ++ (q.data.map Char.toLower ++ s2) := by
      rw [← hocc, List.append_assoc]
    obtain ⟨t1, t23, hsplit, -, hmt23⟩ := List.map_eq_append_iff.mp h1
    obtain ⟨t2, t3, hsplit2, hmt2, -⟩ := List.map_eq_append_iff.mp hmt23
    refine ⟨t23, ⟨t1, hsplit.symm⟩, ?_⟩
    exact (likeMatch_tail_star q.data hq t23).mpr ⟨t2, t3, hsplit2, hmt2.symm⟩

/-- A database whose only spool carries a lower-case tag. -/
def dbLower : DB :=
  { spools := [⟨1, "sp-001"⟩], states := [], events := [],
    nextSpoolId := 2, nextEventId := 1 }

/-- The spec's three-spool lookup example. -/
def dbTags : DB :=
  { spools := [⟨1, "SP-001"⟩, ⟨2, "SP-002"⟩, ⟨3, "AX-100"⟩], states := [],
    events := [], nextSpoolId := 4, nextEventId := 1 }

/-- C7 counterexample: the query SP returns the spool tagged sp-001 even
though SP is not a case-sensitive substring of sp-001: the route's filter
(SQLite LIKE) is case-insensitive for ASCII, so the result is not the set of
case-sensitive substring matches the claim describes. -/
theorem spools_not_case_sensitive :
    spools dbLower ("SP") = [⟨1, "sp-001"⟩] ∧
    ¬ spec_contains_cs ("SP") ("sp-001") ∧
    spools dbLower ("SP") ≠
      (dbLower.spools.filter
        (fun s => decide (spec_contains_cs ("SP") s.tag))).take 100 := by
  refine ⟨by decide, by decide, by decide⟩

/-- C7 as amended: for a query containing no LIKE wildcard (`%` or `_`),
`spools` returns exactly the spools whose tag contains the query as a
substring up to ASCII case (all spools when the query is empty), truncated
to at most 100 results. -/
theorem spools_ci_substring (db : DB) (q : String)
    (hq : ∀ c ∈ q.data, c ≠ '%' ∧ c ≠ '_') :
    spools db q =
      (if q = "" then db.spools
       else db.spools.filter
         (fun s => decide (spec_contains_ci q s.tag))).take 100 ∧
    (spools db q).length ≤ 100 := by
  constructor
  · unfold spools
    by_cases hq0 : q = ""
    · rw [if_pos hq0, if_pos hq0]
    · rw [if_neg hq0, if_neg hq0]
      congr 1
      apply List.filter_congr
      intro s _
      have hiff := tag_like_iff_ci q s.tag hq
      by_cases hci : spec_contains_ci q s.tag
      · rw [hiff.mpr hci, decide_eq_true hci]
      · rw [decide_eq_false hci]
        exact Bool.eq_false_iff.mpr (fun hc => hci (hiff.mp hc))
  · unfold spools
    exact List.length_take_le 100 _

/-- Witness for C7 (amended): the spec's example — tags SP-001, SP-002,
AX-100 and query SP. -/
theorem spools_ci_substring_w :
    spools dbTags ("SP") =
      (if ("SP" : String) = "" then dbTags.spools
       else dbTags.spools.filter
         (fun s => decide (spec_contains_ci ("SP") s.tag))).take 100 ∧
    (spools dbTags ("SP")).length ≤ 100 :=
  spools_ci_substring dbTags ("SP") (by decide)

end SpoolTracker
